import Mathlib

set_option maxRecDepth 100000

/-!
Verification development for the Vitrine DApp backend (`main.py`).

The backend keeps two in-memory key-value tables (`products_db`,
`personas_db`) mirrored to JSON files, relays file uploads to the CESS
storage gateway, and converts between ETH display values (Python floats)
and Wei (integers).  This file gives a shallow embedding of the handlers
the claims refer to:

* Python dict records are association lists of `PyVal`s with Python's
  `d[k]` / `d.get(k)` / `k in d` semantics;
* Python list slicing (`lst[a:b]`, including negative indices) is
  `pySlice`;
* Python floats are modelled as the exact rationals they denote, with
  `roundDouble` performing IEEE-754 binary64 round-to-nearest-even
  (normal range; every input used in the theorems is a normal value);
* external HTTP traffic (the CESS gateway) is an oracle: handlers take
  the outcome of each gateway interaction as an explicit argument;
* `datetime.now()` values are explicit parameters.

Stateful handlers are pure functions from the store (plus oracle inputs)
to a result structure that records the new store, whether the store was
re-persisted to its backing file, and the HTTP response.
-/

/-- Python values as they appear in the backend's records: strings,
ints, floats (exact rationals), `None`, booleans, and lists of FIDs. -/
inductive PyVal where
  | vNone
  | vStr (s : String)
  | vInt (n : Int)
  | vRat (q : ℚ)
  | vBool (b : Bool)
  | vList (l : List String)
deriving DecidableEq, Repr

open PyVal

/-- A Python dict with string keys, as an association list (insertion
order preserved, keys unique in every state the backend builds). -/
def PDict := List (String × PyVal)
deriving DecidableEq, Repr

/-- Python `d.get(k)`: `None` (here `Option.none`) when the key is absent. -/
def dictGet (d : PDict) (k : String) : Option PyVal :=
  (List.find? (fun kv => kv.1 == k) d).map (fun kv => kv.2)

/-- Python `k in d`. -/
def dictHasKey (d : PDict) (k : String) : Bool :=
  (dictGet d k).isSome

/-- Python truthiness of the values that occur in the model. -/
def pyTruthy : PyVal → Bool
  | vNone => false
  | vStr s => s ≠ ""
  | vInt n => n ≠ 0
  | vRat q => q ≠ 0
  | vBool b => b
  | vList l => l ≠ []

/-- Python `v == s` for a string literal `s`: equality across types is
`False`. -/
def pyEqStr (v : PyVal) (s : String) : Bool :=
  match v with
  | vStr t => t == s
  | _ => false

/-- Python dict assignment `db[k] = v`: replaces the value in place when
the key exists, otherwise appends (dicts keep insertion order). -/
def setKey (db : List (String × α)) (k : String) (v : α) : List (String × α) :=
  if (db.find? (fun kv => kv.1 == k)).isSome then
    db.map (fun kv => if kv.1 == k then (k, v) else kv)
  else
    db ++ [(k, v)]

/-- Lookup in a string-keyed table (Python `db[k]` guarded by `k in db`). -/
def tblGet (db : List (String × α)) (k : String) : Option α :=
  (db.find? (fun kv => kv.1 == k)).map (fun kv => kv.2)

/-! ### Python list slicing -/

/-- Python `lst[a:b]` for integer bounds: negative indices count from the
end, bounds are clamped to `[0, len]`. -/
def pySlice (l : List α) (a b : Int) : List α :=
  let n : Int := l.length
  let a' : Int := if a < 0 then max (n + a) 0 else min a n
  let b' : Int := if b < 0 then max (n + b) 0 else min b n
  (l.take b'.toNat).drop a'.toNat

/-! ### GET /api/products (`get_products`, main.py lines 470-501)

`category` and `seller` filters index `p["category"]` / `p["seller"]`
directly, so a record missing the field raises `KeyError`, which the
handler's blanket `except Exception` turns into HTTP 500.  The `status`
filter uses `p.get("status")`, which silently excludes such records.
A filter parameter is applied only when truthy (`if category:`), so an
empty string disables it. -/

/-- One comprehension step `[p for p in recs if p[k] == v]`: evaluates
`p[k]` for every record, raising (`Except.error`) at the first record
missing key `k`. -/
def filterIndexed (k v : String) : List PDict → Except Unit (List PDict)
  | [] => .ok []
  | p :: ps =>
    match dictGet p k with
    | none => .error ()
    | some pv => do
      let rest ← filterIndexed k v ps
      pure (if pyEqStr pv v then p :: rest else rest)

/-- `[p for p in recs if p.get(k) == v]`: a record missing `k` yields
`None == v`, which is `False`, so it is silently dropped. -/
def filterGet (k v : String) (recs : List PDict) : List PDict :=
  recs.filter (fun p =>
    match dictGet p k with
    | some pv => pyEqStr pv v
    | none => false)

/-- The filter cascade of `get_products`: category and seller filters (by
direct indexing, may raise), then the status filter (by `.get`).  A
filter parameter is applied only when truthy (`if category:` — `None`
and `""` both skip it); the first raised `KeyError` aborts the cascade. -/
def filterPipeline (recs : List PDict) (category seller status : Option String) :
    Except Unit (List PDict) :=
  match (match category with
    | some c => if c = "" then Except.ok recs else filterIndexed ("category") c recs
    | none => Except.ok recs) with
  | .error e => .error e
  | .ok r1 =>
    match (match seller with
      | some s => if s = "" then Except.ok r1 else filterIndexed ("seller") s r1
      | none => Except.ok r1) with
    | .error e => .error e
    | .ok r2 =>
      .ok (match status with
        | some s => if s = "" then r2 else filterGet ("status") s r2
        | none => r2)

/-- Response of `GET /api/products`. -/
structure ProductsPage where
  products : List PDict
  total : Nat
  limit : Int
  offset : Int
deriving DecidableEq, Repr

/-- `get_products`: filter, count, then return the Python slice
`filtered[offset : offset + limit]`.  Any exception (a `KeyError` from
a filter) becomes HTTP 500. -/
def get_products (db : List (String × PDict)) (category seller status : Option String)
    (limit offset : Int) : Except Nat ProductsPage :=
  match filterPipeline (db.map Prod.snd) category seller status with
  | .error _ => .error 500
  | .ok filtered =>
    .ok ⟨pySlice filtered offset (offset + limit), filtered.length, limit, offset⟩

/-- Bridge between Mathlib's floor and the executable `Rat.floor`. -/
theorem intFloor_eq_ratFloor (q : ℚ) : ⌊q⌋ = Rat.floor q := by
  rw [Rat.floor_def, Rat.floor_def']

/-! ### The float model (Unit Converter, main.py lines 113-119)

Python floats are IEEE-754 binary64 values; we model each float by the
exact rational it denotes and each arithmetic operation by the exact
rational result rounded with `roundDouble` (round to nearest, ties to
even, 53-bit significand).  The model covers the normal range — no
overflow, underflow or subnormal handling — which is sound for every
value appearing in the theorems below.

Batteries marks `Rat.mul` / `Rat.add` / `Rat.inv` irreducible, which
blocks `decide` on concrete values, so the arithmetic inside the model
goes through `Rat.divInt`-based helpers (`qmul`, `qdiv`, `mulPow2`,
`intMulPow2`); the bridge lemmas `qmul_eq` / `qdiv_eq` prove them equal
to the ordinary field operations on `ℚ`. -/

/-- Executable multiplication on `ℚ` (equal to `*` by `qmul_eq`). -/
def qmul (a b : ℚ) : ℚ := Rat.divInt (a.num * b.num) ((a.den : Int) * (b.den : Int))

/-- Executable division on `ℚ` (equal to `/` by `qdiv_eq`). -/
def qdiv (a b : ℚ) : ℚ := Rat.divInt (a.num * (b.den : Int)) ((a.den : Int) * b.num)

theorem qmul_eq (a b : ℚ) : qmul a b = a * b := by
  rw [qmul, Rat.divInt_eq_div]
  push_cast
  rw [← div_mul_div_comm, Rat.num_div_den, Rat.num_div_den]

theorem qdiv_eq (a b : ℚ) : qdiv a b = a / b := by
  rw [qdiv, Rat.divInt_eq_div]
  push_cast
  rw [← div_mul_div_comm, Rat.num_div_den, div_eq_mul_inv a b, Rat.inv_def',
    Rat.divInt_eq_div]
  norm_cast

/-- The rational `m * 2 ^ e` for an integer `m` and integer exponent `e`. -/
def intMulPow2 (m : Int) (e : Int) : ℚ :=
  if 0 ≤ e then Rat.divInt (m * (2 ^ e.toNat : Int)) 1
  else Rat.divInt m (2 ^ (-e).toNat : Int)

/-- The rational `q * 2 ^ e` for an integer exponent `e`. -/
def mulPow2 (q : ℚ) (e : Int) : ℚ :=
  if 0 ≤ e then Rat.divInt (q.num * (2 ^ e.toNat : Int)) (q.den : Int)
  else Rat.divInt q.num ((q.den : Int) * (2 ^ (-e).toNat : Int))

/-- Fuel-driven floor of `log2` on naturals: structural recursion so
that the kernel can evaluate it; `fuel = n` always suffices. -/
def natLog2Aux : Nat → Nat → Nat
  | 0, _ => 0
  | fuel + 1, n => if n ≤ 1 then 0 else natLog2Aux fuel (n / 2) + 1

/-- Floor of the base-2 logarithm of a natural number (0 for inputs 0, 1). -/
def natLog2 (n : Nat) : Nat := natLog2Aux n n

/-- Decide `2 ^ e ≤ q` by cross-multiplication (integer arithmetic only). -/
def le2pow (e : Int) (q : ℚ) : Bool :=
  if 0 ≤ e then decide ((2 ^ e.toNat : Int) * (q.den : Int) ≤ q.num)
  else decide ((q.den : Int) ≤ q.num * (2 ^ (-e).toNat : Int))

/-- Floor of the base-2 logarithm of a positive rational: a candidate
from the bit lengths of numerator and denominator, corrected by direct
comparison (meaningless on nonpositive inputs, which never reach it). -/
def floorLog2 (q : ℚ) : Int :=
  let e0 : Int := (natLog2 q.num.toNat : Int) - (natLog2 q.den : Int)
  if le2pow (e0 + 1) q then e0 + 1 else if le2pow e0 q then e0 else e0 - 1

/-- Round a rational to the nearest integer, ties to even.  The
fractional part `q - floor q` is `rnum / den` exactly, so the
comparisons with `1/2` are integer comparisons. -/
def rne (q : ℚ) : Int :=
  let f := Rat.floor q
  let rnum : Int := q.num - f * (q.den : Int)
  if 2 * rnum < (q.den : Int) then f
  else if (q.den : Int) < 2 * rnum then f + 1
  else if f % 2 = 0 then f else f + 1

/-- Round an exact rational to the nearest IEEE-754 binary64 value
(normal range): scale by `2 ^ (52 - floorLog2 q)` into `[2^52, 2^53)`,
round the significand to an integer (ties to even), scale back. -/
def roundDouble (q : ℚ) : ℚ :=
  if q.num = 0 then 0
  else if 0 < q.num then
    intMulPow2 (rne (mulPow2 q (52 - floorLog2 q))) (floorLog2 q - 52)
  else
    -(intMulPow2 (rne (mulPow2 (-q) (52 - floorLog2 (-q)))) (floorLog2 (-q) - 52))

/-- Python `int(q)` on a float: truncation toward zero. -/
def pyIntTrunc (q : ℚ) : Int :=
  if 0 ≤ q.num then Rat.floor q else -(Rat.floor (-q))

/-- Truncation agrees with the floor on nonnegative arguments. -/
theorem pyIntTrunc_eq_floor (q : ℚ) (h : 0 ≤ q) : pyIntTrunc q = ⌊q⌋ := by
  rw [pyIntTrunc, if_pos (Rat.num_nonneg.mpr h), intFloor_eq_ratFloor]

/-- `eth_to_wei` (main.py line 113): `int(eth_amount * 10**18)`.  The
argument is the exact rational denoted by the input float; `10**18` is
exactly representable, so the only rounding is on the product. -/
def eth_to_wei (eth_amount : ℚ) : Int :=
  pyIntTrunc (roundDouble (eth_amount * 1000000000000000000))

/-- `wei_to_eth` (main.py line 117): `wei_amount / 10**18`, Python true
division of two ints, which returns the double nearest to the exact
quotient. -/
def wei_to_eth (wei_amount : Int) : ℚ :=
  roundDouble ((wei_amount : ℚ) / 1000000000000000000)

/-! ### Product identifiers (main.py lines 139-153, 366-368)

`register_product_blockchain` allocates
`f"prod_{product_counter}_{int(datetime.now().timestamp())}"` after
incrementing the counter; `load_products_from_file` reconstructs the
counter as `max(int(pid.split("_")[1]) for pid in products_db)`, and any
exception while loading (unparseable JSON, a key with no second
underscore field, a non-integer field) resets the table to `{}` and
leaves the counter at its startup value 0. -/

/-- Decimal digit character for `d < 10` (clamps at `'9'` above). -/
def digitChar (d : Nat) : Char :=
  if d = 0 then '0' else if d = 1 then '1' else if d = 2 then '2'
  else if d = 3 then '3' else if d = 4 then '4' else if d = 5 then '5'
  else if d = 6 then '6' else if d = 7 then '7' else if d = 8 then '8' else '9'

/-- Decimal digits of a natural number, most significant first (the model
of Python's `str`/f-string formatting of a nonnegative int). -/
def natDigits (n : Nat) : List Char :=
  if _ : n < 10 then [digitChar n]
  else natDigits (n / 10) ++ [digitChar (n % 10)]
termination_by n
decreasing_by exact Nat.div_lt_self (by omega) (by omega)

/-- Python `str` of an int: a minus sign followed by the digits when
negative. -/
def intDigits (c : Int) : List Char :=
  if c < 0 then '-' :: natDigits (-c).toNat else natDigits c.toNat

/-- Value of a decimal digit character, `none` on a non-digit. -/
def digitVal (c : Char) : Option Nat :=
  if c.isDigit then some (c.toNat - 48) else none

/-- Accumulating decimal parser: fails at the first non-digit. -/
def parseNatAux : List Char → Nat → Option Nat
  | [], acc => some acc
  | c :: cs, acc =>
    match digitVal c with
    | some d => parseNatAux cs (10 * acc + d)
    | none => none

/-- Parse a nonempty all-digit string as a natural number. -/
def parseNatDigits (l : List Char) : Option Nat :=
  if l.isEmpty then none else parseNatAux l 0

/-- Python `int(s)` restricted to an optional sign followed by digits
(`int` also strips whitespace, which no generated key contains). -/
def pyParseInt (l : List Char) : Option Int :=
  match l with
  | [] => none
  | c :: rest =>
    if c = '-' then (parseNatDigits rest).map (fun n => -(n : Int))
    else if c = '+' then (parseNatDigits rest).map (fun n => (n : Int))
    else (parseNatDigits (c :: rest)).map (fun n => (n : Int))

/-- Python `s.split(sep)` for a single-character separator, on the
character list: `acc` holds the current piece reversed. -/
def pySplitAux (sep : Char) : List Char → List Char → List (List Char)
  | [], acc => [acc.reverse]
  | c :: cs, acc =>
    if c = sep then acc.reverse :: pySplitAux sep cs []
    else pySplitAux sep cs (c :: acc)

/-- Python `s.split(sep)`. -/
def pySplit (sep : Char) (l : List Char) : List (List Char) := pySplitAux sep l []

/-- `int(pid.split("_")[1])`: `none` models the `IndexError` /
`ValueError` the Python expression can raise. -/
def parseCounterKey (k : String) : Option Int :=
  match (pySplit '_' k.toList).get? 1 with
  | some piece => pyParseInt piece
  | none => none

/-- `f"prod_{c}_{ts}"`, the product identifier format. -/
def mkProductId (c : Int) (ts : Nat) : String :=
  String.mk (['p', 'r', 'o', 'd', '_'] ++ intDigits c ++ '_' :: natDigits ts)

/-- `max` of a list of ints (Python `max`; the empty case never arises). -/
def listMax : List Int → Int
  | [] => 0
  | c :: cs => cs.foldl max c

/-- The numeric components `int(pid.split("_")[1])` of every key of the
table; `none` when any key fails to parse (modelling the exception). -/
def allComps : List (String × PDict) → Option (List Int)
  | [] => some []
  | kv :: rest =>
    match parseCounterKey kv.1, allComps rest with
    | some c, some cs => some (c :: cs)
    | _, _ => none

/-- `load_products_from_file` at process start (`products_db = {}`,
`product_counter = 0` beforehand).  The input is `none` when
`products.json` does not exist, `some none` when it exists but is not
parseable JSON, and `some (some t)` when it parses to the table `t`. -/
def load_products_from_file (file : Option (Option (List (String × PDict)))) :
    List (String × PDict) × Int :=
  match file with
  | none => ([], 0)
  | some none => ([], 0)
  | some (some t) =>
    if t.isEmpty then (t, 0)
    else
      match allComps t with
      | some cs => (t, listMax cs)
      | none => ([], 0)

/-! Correctness ladder for parsing back a generated identifier. -/

theorem digitChar_isDigit (d : Nat) : (digitChar d).isDigit = true := by
  rw [digitChar]
  repeat' split
  all_goals decide

theorem natDigits_ne_nil (n : Nat) : natDigits n ≠ [] := by
  rw [natDigits]
  split
  · simp
  · simp

theorem mem_natDigits_isDigit (n : Nat) : ∀ c ∈ natDigits n, c.isDigit = true := by
  induction n using Nat.strong_induction_on with
  | _ n ih =>
    intro c hc
    rw [natDigits] at hc
    split at hc
    · rw [List.mem_singleton] at hc
      exact hc ▸ digitChar_isDigit n
    · rw [List.mem_append, List.mem_singleton] at hc
      rcases hc with hc | hc
      · exact ih (n / 10) (Nat.div_lt_self (by omega) (by omega)) c hc
      · exact hc ▸ digitChar_isDigit (n % 10)

theorem digitVal_digitChar (d : Nat) (h : d < 10) : digitVal (digitChar d) = some d := by
  interval_cases d <;> decide

theorem parseNatAux_append (l1 l2 : List Char) (acc : Nat) :
    parseNatAux (l1 ++ l2) acc =
      match parseNatAux l1 acc with
      | some m => parseNatAux l2 m
      | none => none := by
  induction l1 generalizing acc with
  | nil => simp [parseNatAux]
  | cons c cs ih =>
    rw [List.cons_append, parseNatAux, parseNatAux]
    cases digitVal c with
    | some d => exact ih (10 * acc + d)
    | none => rfl

theorem parseNatAux_natDigits (n : Nat) : parseNatAux (natDigits n) 0 = some n := by
  induction n using Nat.strong_induction_on with
  | _ n ih =>
    rw [natDigits]
    split
    · next h =>
      rw [parseNatAux, digitVal_digitChar n h]
      simp [parseNatAux]
    · next h =>
      rw [parseNatAux_append, ih (n / 10) (Nat.div_lt_self (by omega) (by omega))]
      have h10 : digitVal (digitChar (n % 10)) = some (n % 10) :=
        digitVal_digitChar (n % 10) (Nat.mod_lt n (by omega))
      simp [parseNatAux, h10]
      omega

theorem parseNatDigits_natDigits (n : Nat) : parseNatDigits (natDigits n) = some n := by
  rw [parseNatDigits, if_neg, parseNatAux_natDigits]
  simp [List.isEmpty_iff, natDigits_ne_nil n]

theorem pyParseInt_intDigits (c : Int) : pyParseInt (intDigits c) = some c := by
  rw [intDigits]
  split
  · next h =>
    rw [pyParseInt, if_pos rfl, parseNatDigits_natDigits]
    simp
    omega
  · next h =>
    obtain ⟨c₀, rest, hl⟩ := List.exists_cons_of_ne_nil (natDigits_ne_nil c.toNat)
    have hd : c₀.isDigit = true := mem_natDigits_isDigit c.toNat c₀ (by
      rw [hl]; exact List.mem_cons_self c₀ rest)
    have h1 : c₀ ≠ '-' := by intro heq; rw [heq] at hd; exact absurd hd (by decide)
    have h2 : c₀ ≠ '+' := by intro heq; rw [heq] at hd; exact absurd hd (by decide)
    rw [hl, pyParseInt, if_neg h1, if_neg h2, ← hl, parseNatDigits_natDigits]
    simp
    omega

theorem pySplitAux_no_sep (sep : Char) (l acc : List Char) (h : sep ∉ l) :
    pySplitAux sep l acc = [acc.reverse ++ l] := by
  induction l generalizing acc with
  | nil => simp [pySplitAux]
  | cons c cs ih =>
    rw [pySplitAux, if_neg (by rintro rfl; exact h (List.mem_cons_self c cs))]
    rw [ih (c :: acc) (fun hm => h (List.mem_cons_of_mem c hm))]
    simp

theorem pySplitAux_sep_append (sep : Char) (l1 l2 acc : List Char) (h : sep ∉ l1) :
    pySplitAux sep (l1 ++ sep :: l2) acc =
      (acc.reverse ++ l1) :: pySplitAux sep l2 [] := by
  induction l1 generalizing acc with
  | nil => simp [pySplitAux]
  | cons c cs ih =>
    rw [List.cons_append, pySplitAux,
      if_neg (by rintro rfl; exact h (List.mem_cons_self c cs))]
    rw [ih (c :: acc) (fun hm => h (List.mem_cons_of_mem c hm))]
    simp

theorem underscore_not_mem_natDigits (n : Nat) : '_' ∉ natDigits n := by
  intro hm
  have := mem_natDigits_isDigit n '_' hm
  exact absurd this (by decide)

theorem underscore_not_mem_intDigits (c : Int) : '_' ∉ intDigits c := by
  rw [intDigits]
  split
  · intro hm
    rcases List.mem_cons.mp hm with h | h
    · exact absurd h (by decide)
    · exact underscore_not_mem_natDigits _ h
  · exact underscore_not_mem_natDigits _

theorem parseCounterKey_mkProductId (c : Int) (ts : Nat) :
    parseCounterKey (mkProductId c ts) = some c := by
  have htl : (mkProductId c ts).toList =
      ['p', 'r', 'o', 'd'] ++ '_' :: (intDigits c ++ '_' :: natDigits ts) := by
    simp [mkProductId, String.toList]
  rw [parseCounterKey, htl, pySplit,
    pySplitAux_sep_append '_' ['p', 'r', 'o', 'd'] _ [] (by decide),
    pySplitAux_sep_append '_' (intDigits c) _ [] (underscore_not_mem_intDigits c)]
  simp [pyParseInt_intDigits c]

theorem le_foldl_max (l : List Int) (b : Int) : b ≤ l.foldl max b := by
  induction l generalizing b with
  | nil => exact le_refl b
  | cons c cs ih => exact le_trans (le_max_left b c) (ih (max b c))

theorem mem_le_foldl_max (l : List Int) : ∀ b c : Int, c ∈ l → c ≤ l.foldl max b := by
  induction l with
  | nil => intro _ _ hc; cases hc
  | cons a cs ih =>
    intro b c hc
    rcases List.mem_cons.mp hc with rfl | hc
    · exact le_trans (le_max_right b c) (le_foldl_max cs (max b c))
    · exact ih (max b a) c hc

theorem mem_le_listMax (l : List Int) (c : Int) (hc : c ∈ l) : c ≤ listMax l := by
  cases l with
  | nil => cases hc
  | cons a cs =>
    rw [listMax]
    rcases List.mem_cons.mp hc with rfl | hc
    · exact le_foldl_max cs c
    · exact mem_le_foldl_max cs a c hc

/-! ### SHA-256 and the CESS upload relay (main.py lines 175-207)

`upload_file_to_cess` sends the payload to the gateway; on a 200
response it tries `response.json().get("fid")` and, when the body is
not parseable (any exception) or the `fid` value is missing or falsy,
falls back to `hashlib.sha256(file_content).hexdigest()`.  SHA-256 is
implemented below on byte lists (naturals `< 256`), 32-bit words as
naturals reduced mod `2^32`. -/

/-- Truncate to a 32-bit word. -/
def w32 (n : Nat) : Nat := n % 4294967296

/-- Right-rotate a 32-bit word by `s`. -/
def rotr32 (s n : Nat) : Nat := w32 ((n >>> s) ||| (n <<< (32 - s)))

def sigBig0 (x : Nat) : Nat := rotr32 2 x ^^^ rotr32 13 x ^^^ rotr32 22 x

def sigBig1 (x : Nat) : Nat := rotr32 6 x ^^^ rotr32 11 x ^^^ rotr32 25 x

def sigSmall0 (x : Nat) : Nat := rotr32 7 x ^^^ rotr32 18 x ^^^ (x >>> 3)

def sigSmall1 (x : Nat) : Nat := rotr32 17 x ^^^ rotr32 19 x ^^^ (x >>> 10)

def shaCh (x y z : Nat) : Nat := (x &&& y) ^^^ ((x ^^^ 4294967295) &&& z)

def shaMaj (x y z : Nat) : Nat := (x &&& y) ^^^ (x &&& z) ^^^ (y &&& z)

/-- The 64 SHA-256 round constants (decimal). -/
def kConsts : List Nat :=
  [1116352408, 1899447441, 3049323471, 3921009573, 961987163,
   1508970993, 2453635748, 2870763221, 3624381080, 310598401,
   607225278, 1426881987, 1925078388, 2162078206, 2614888103,
   3248222580, 3835390401, 4022224774, 264347078, 604807628,
   770255983, 1249150122, 1555081692, 1996064986, 2554220882,
   2821834349, 2952996808, 3210313671, 3336571891, 3584528711,
   113926993, 338241895, 666307205, 773529912, 1294757372,
   1396182291, 1695183700, 1986661051, 2177026350, 2456956037,
   2730485921, 2820302411, 3259730800, 3345764771, 3516065817,
   3600352804, 4094571909, 275423344, 430227734, 506948616,
   659060556, 883997877, 958139571, 1322822218, 1537002063,
   1747873779, 1955562222, 2024104815, 2227730452, 2361852424,
   2428436474, 2756734187, 3204031479, 3329325298]

/-- The initial SHA-256 hash state (decimal). -/
def hInit : List Nat :=
  [1779033703, 3144134277, 1013904242, 2773480762,
   1359893119, 2600822924, 528734635, 1541459225]

/-- Fuel-driven worker for `chunksOf` (structural recursion so that the
kernel can evaluate it; `fuel = l.length` always suffices for `k > 0`). -/
def chunksOfAux (k : Nat) : Nat → List α → List (List α)
  | 0, _ => []
  | fuel + 1, l =>
    if l.isEmpty || k == 0 then [] else l.take k :: chunksOfAux k fuel (l.drop k)

/-- Split a list into chunks of `k` elements (`k > 0`). -/
def chunksOf (k : Nat) (l : List α) : List (List α) := chunksOfAux k l.length l

/-- Big-endian bytes (8 of them) of the message bit length. -/
def lenBytes8 (n : Nat) : List Nat :=
  [(n >>> 56) % 256, (n >>> 48) % 256, (n >>> 40) % 256, (n >>> 32) % 256,
   (n >>> 24) % 256, (n >>> 16) % 256, (n >>> 8) % 256, n % 256]

/-- SHA-256 padding: `0x80`, zeros to 56 mod 64, then the bit length. -/
def padMsg (m : List Nat) : List Nat :=
  m ++ 128 :: List.replicate ((119 - m.length % 64) % 64) 0 ++ lenBytes8 (m.length * 8)

/-- Big-endian 32-bit words from a chunk of bytes. -/
def toWords32 (l : List Nat) : List Nat :=
  (chunksOf 4 l).map (fun c =>
    (c.getD 0 0) * 16777216 + (c.getD 1 0) * 65536 + (c.getD 2 0) * 256 + c.getD 3 0)

/-- Extend the 16 chunk words to the 64-entry message schedule. -/
def extendSchedule (ws : List Nat) : List Nat :=
  (List.range 48).foldl
    (fun acc _ =>
      acc ++ [w32 (sigSmall1 (acc.getD (acc.length - 2) 0) + acc.getD (acc.length - 7) 0 +
        sigSmall0 (acc.getD (acc.length - 15) 0) + acc.getD (acc.length - 16) 0)])
    ws

/-- The eight working registers of the compression loop. -/
structure H8 where
  a : Nat
  b : Nat
  c : Nat
  d : Nat
  e : Nat
  f : Nat
  g : Nat
  h : Nat
deriving DecidableEq, Repr

/-- One round of the SHA-256 compression function. -/
def stepRound (st : H8) (k w : Nat) : H8 :=
  let t1 := w32 (st.h + sigBig1 st.e + shaCh st.e st.f st.g + k + w)
  let t2 := w32 (sigBig0 st.a + shaMaj st.a st.b st.c)
  ⟨w32 (t1 + t2), st.a, st.b, st.c, w32 (st.d + t1), st.e, st.f, st.g⟩

/-- Process one 64-byte chunk. -/
def processChunk (hs : List Nat) (chunk : List Nat) : List Nat :=
  let ws := extendSchedule (toWords32 chunk)
  let st0 : H8 := ⟨hs.getD 0 0, hs.getD 1 0, hs.getD 2 0, hs.getD 3 0,
    hs.getD 4 0, hs.getD 5 0, hs.getD 6 0, hs.getD 7 0⟩
  let stF := (kConsts.zip ws).foldl (fun st p => stepRound st p.1 p.2) st0
  [w32 (hs.getD 0 0 + stF.a), w32 (hs.getD 1 0 + stF.b), w32 (hs.getD 2 0 + stF.c),
   w32 (hs.getD 3 0 + stF.d), w32 (hs.getD 4 0 + stF.e), w32 (hs.getD 5 0 + stF.f),
   w32 (hs.getD 6 0 + stF.g), w32 (hs.getD 7 0 + stF.h)]

/-- SHA-256 digest of a byte list, as eight 32-bit words. -/
def sha256words (msg : List Nat) : List Nat :=
  (chunksOf 64 (padMsg msg)).foldl processChunk hInit

/-- Lower-case hex digit: `'0'`–`'9'` then `'a'`–`'f'`. -/
def hexDigit (d : Nat) : Char :=
  Char.ofNat (if d < 10 then 48 + d else 87 + d)

/-- Eight hex characters of a 32-bit word, most significant nibble first. -/
def hexWord8 (n : Nat) : List Char :=
  [hexDigit ((n >>> 28) % 16), hexDigit ((n >>> 24) % 16), hexDigit ((n >>> 20) % 16),
   hexDigit ((n >>> 16) % 16), hexDigit ((n >>> 12) % 16), hexDigit ((n >>> 8) % 16),
   hexDigit ((n >>> 4) % 16), hexDigit (n % 16)]

/-- `hashlib.sha256(content).hexdigest()`. -/
def sha256hex (msg : List Nat) : String :=
  String.mk ((sha256words msg).foldr (fun wd acc => hexWord8 wd ++ acc) [])

/-- The CESS credentials read from the environment; `none` models an
unset variable, and Python's `all([...])` treats `""` as missing too. -/
structure CessConfig where
  account : Option String
  message : Option String
  signature : Option String
deriving DecidableEq, Repr

/-- Python truthiness of an optional string (`None` and `""` are falsy). -/
def pyTruthyOptStr : Option String → Bool
  | none => false
  | some s => s ≠ ""

/-- The gateway's reply to one upload: HTTP status, and the result of
`response.json().get("fid")` — `none` when anything in that `try` block
raises (unparseable body, non-dict JSON), `some d` for a parsed dict. -/
structure CessResp where
  status : Nat
  parsed : Option PDict
deriving DecidableEq, Repr

/-- `upload_file_to_cess`: 500 on missing credentials, 503 on a non-200
gateway status; on 200, the `fid` field of the body if truthy, else the
SHA-256 hex digest of the payload bytes. -/
def upload_file_to_cess (cfg : CessConfig) (content : List Nat) (resp : CessResp) :
    Except Nat PyVal :=
  if !(pyTruthyOptStr cfg.account && pyTruthyOptStr cfg.message &&
      pyTruthyOptStr cfg.signature) then
    .error 500
  else if resp.status = 200 then
    match resp.parsed with
    | none => .ok (vStr (sha256hex content))
    | some d =>
      match dictGet d ("fid") with
      | none => .ok (vStr (sha256hex content))
      | some v => if pyTruthy v then .ok v else .ok (vStr (sha256hex content))
  else
    .error 503

/-! ### Personas (main.py lines 554-633)

`create_persona` rejects an existing wallet with 409 before touching the
table; otherwise it stores the payload with `created_at = now` and
`updated_at = persona.updated_at or created_at` (Python `or`: `None`
and `""` both fall back) and saves the file.  `update_persona` rejects
a missing wallet with 404; otherwise it replaces the record with the
payload, `updated_at = now` and `created_at` copied from the old
record, and saves. -/

/-- The request body of the persona endpoints (`PersonaData` model). -/
structure PersonaData where
  wallet_address : String
  interests : List String
  browsing_history : PDict
  preferences : PDict
  demographics : Option PDict
  updated_at : Option String
deriving DecidableEq, Repr

/-- A persona record as stored in `personas_db`. -/
structure StoredPersona where
  wallet_address : String
  interests : List String
  browsing_history : PDict
  preferences : PDict
  demographics : Option PDict
  created_at : String
  updated_at : String
deriving DecidableEq, Repr

deriving instance DecidableEq for Except

/-- Python `x or y` on an optional string (`None` and `""` are falsy). -/
def pyOrStr (o : Option String) (dflt : String) : String :=
  match o with
  | some s => if s = "" then dflt else s
  | none => dflt

/-- Outcome of a mutating handler: the table afterwards, whether it was
re-persisted to its file, and the HTTP response (status code on error). -/
structure StoreResult (σ : Type) where
  db : σ
  saved : Bool
  response : Except Nat String
deriving DecidableEq, Repr

/-- `POST /api/persona/create`. -/
def create_persona (db : List (String × StoredPersona)) (p : PersonaData) (now : String) :
    StoreResult (List (String × StoredPersona)) :=
  if (tblGet db p.wallet_address).isSome then ⟨db, false, .error 409⟩
  else
    ⟨setKey db p.wallet_address
      ⟨p.wallet_address, p.interests, p.browsing_history, p.preferences,
        p.demographics, now, pyOrStr p.updated_at now⟩,
      true, .ok p.wallet_address⟩

/-- `PUT /api/persona/update/{wallet_address}`. -/
def update_persona (db : List (String × StoredPersona)) (wallet : String)
    (p : PersonaData) (now : String) : StoreResult (List (String × StoredPersona)) :=
  match tblGet db wallet with
  | none => ⟨db, false, .error 404⟩
  | some old =>
    ⟨setKey db wallet
      ⟨p.wallet_address, p.interests, p.browsing_history, p.preferences,
        p.demographics, old.created_at, now⟩,
      true, .ok wallet⟩

/-! ### Cleanup (main.py lines 665-694)

`cleanup_products` collects the ids of records missing any of `name`,
`price`, `seller` (presence test `key in product_data`), deletes those
ids, and re-persists the file only when at least one was removed. -/

/-- A record has all three required fields. -/
def requiredOk (d : PDict) : Bool :=
  dictHasKey d ("name") && dictHasKey d ("price") && dictHasKey d ("seller")

/-- Result of `GET /api/admin/products/cleanup`. -/
structure CleanupResult where
  db : List (String × PDict)
  cleaned : Nat
  saved : Bool
  remaining : Nat
deriving DecidableEq, Repr

/-- `cleanup_products`. -/
def cleanup_products (db : List (String × PDict)) : CleanupResult :=
  let toRemove := (db.filter (fun kv => !(requiredOk kv.2))).map (fun kv => kv.1)
  let db2 := db.filter (fun kv => !(toRemove.contains kv.1))
  ⟨db2, toRemove.length, decide (0 < toRemove.length), db2.length⟩

/-! ### Registration pipeline (main.py lines 300-401)

`register_product_blockchain` parses the `attributes` form field
(400 on bad JSON), uploads the images one by one (each upload is a
gateway interaction whose outcome is an oracle input here; the loop
stops at the first failure and the raised `HTTPException` is swallowed
by the handler's `except Exception`, resurfacing as HTTP 500), uploads
the metadata blob, and only then increments `product_counter`, builds
the record, inserts it and saves the file.  `gatewayImages` counts the
image payloads that reached the gateway successfully before any
failure. -/

/-- Whether an upload outcome is a success. -/
def exceptIsOk : Except ε α → Bool
  | .ok _ => true
  | .error _ => false

/-- The image-upload loop: returns how many uploads succeeded (all of
them reached the gateway) and either the collected FIDs in order or the
first failure. -/
def uploadImages : List (Except Nat String) → Nat × Except Nat (List String)
  | [] => (0, .ok [])
  | .ok fid :: rest =>
    let r := uploadImages rest
    (r.1 + 1, r.2.map (fun l => fid :: l))
  | .error e :: _ => (0, .error e)

/-- The `product_data` dict built by `register_product_blockchain`. -/
def mkProductRecord (pid name description : String) (price : ℚ) (category : String)
    (images : List String) (seller created_at status metadata_fid deliverer : String)
    (bps : Int) : PDict :=
  [("id", vStr pid), ("name", vStr name), ("description", vStr description),
   ("price", vRat price), ("category", vStr category), ("images", vList images),
   ("seller", vStr seller), ("created_at", vStr created_at), ("status", vStr status),
   ("metadata_fid", vStr metadata_fid), ("deliverer_address", vStr deliverer),
   ("creator_commission_bps", vInt bps)]

/-- The response of `POST /api/products/register-blockchain` on success. -/
structure RegResponse where
  product_id : String
  metadata_fid : String
  image_fids : List String
  price_wei : Int
deriving DecidableEq, Repr

/-- Full observable outcome of one `register_product_blockchain` call. -/
structure PipelineOut where
  db : List (String × PDict)
  counter : Int
  saved : Bool
  gatewayImages : Nat
  response : Except Nat RegResponse
deriving DecidableEq, Repr

/-- `register_product_blockchain`.  `attrs` is the parse outcome of the
`attributes` field, `imgOutcomes` the gateway outcome of each image
upload in order, `metaOutcome` the gateway outcome of the metadata
upload, `now` the wall-clock ISO timestamp and `ts` the Unix timestamp
used in the product id. -/
def register_product_blockchain (db : List (String × PDict)) (counter : Int)
    (name description category : String) (price_eth : ℚ)
    (seller_address deliverer_address : String)
    (attrs : Except Unit PDict) (imgOutcomes : List (Except Nat String))
    (metaOutcome : Except Nat String) (creator_commission_bps : Int)
    (now : String) (ts : Nat) : PipelineOut :=
  match attrs with
  | .error _ => ⟨db, counter, false, 0, .error 400⟩
  | .ok _ =>
    match uploadImages imgOutcomes with
    | (g, .error _) => ⟨db, counter, false, g, .error 500⟩
    | (g, .ok image_fids) =>
      match metaOutcome with
      | .error _ => ⟨db, counter, false, g, .error 500⟩
      | .ok metadata_fid =>
        let c := counter + 1
        let pid := mkProductId c ts
        ⟨setKey db pid
          (mkProductRecord pid name description price_eth category image_fids
            seller_address now ("pending_blockchain") metadata_fid deliverer_address
            creator_commission_bps),
          c, true, g, .ok ⟨pid, metadata_fid, image_fids, eth_to_wei price_eth⟩⟩

/-! ### Helper lemmas -/

theorem find?_map_replace (db : List (String × α)) (k : String) (v : α) :
    (db.map (fun kv => if kv.1 == k then (k, v) else kv)).find? (fun kv => kv.1 == k) =
      if (db.find? (fun kv => kv.1 == k)).isSome then some (k, v) else none := by
  induction db with
  | nil => simp
  | cons kv rest ih =>
    rw [List.map_cons]
    by_cases hk : kv.1 = k
    · have h1 : (if kv.1 == k then (k, v) else kv) = (k, v) := by simp [hk]
      rw [h1, List.find?_cons_of_pos _ (by simp), List.find?_cons_of_pos _ (by simp [hk])]
      simp
    · have h1 : (if kv.1 == k then (k, v) else kv) = kv := by simp [hk]
      rw [h1, List.find?_cons_of_neg _ (by simp [hk]), List.find?_cons_of_neg _ (by simp [hk]),
        ih]

theorem tblGet_setKey (db : List (String × α)) (k : String) (v : α) :
    tblGet (setKey db k v) k = some v := by
  rw [tblGet, setKey]
  split
  · next hp => rw [find?_map_replace, if_pos hp]; rfl
  · next hp =>
    rw [List.find?_append]
    have h0 : db.find? (fun kv => kv.1 == k) = none := by
      cases h : db.find? (fun kv => kv.1 == k) with
      | none => rfl
      | some x => rw [h] at hp; exact absurd rfl hp
    rw [h0]
    simp [List.find?]

theorem uploadImages_error (outcomes : List (Except Nat String)) (e : Nat)
    (he : Except.error e ∈ outcomes) :
    ∃ e2, uploadImages outcomes =
      ((outcomes.takeWhile exceptIsOk).length, Except.error e2) := by
  induction outcomes with
  | nil => cases he
  | cons o rest ih =>
    cases o with
    | ok fid =>
      have he2 : Except.error e ∈ rest := by
        rcases List.mem_cons.mp he with h | h
        · cases h
        · exact h
      obtain ⟨e2, h2⟩ := ih he2
      exact ⟨e2, by simp [uploadImages, h2, List.takeWhile_cons, exceptIsOk, Except.map]⟩
    | error e0 =>
      exact ⟨e0, by simp [uploadImages, List.takeWhile_cons, exceptIsOk]⟩

theorem filterIndexed_error (k v : String) (recs : List PDict)
    (h : ∃ p ∈ recs, dictGet p k = none) : filterIndexed k v recs = .error () := by
  induction recs with
  | nil => obtain ⟨p, hp, _⟩ := h; cases hp
  | cons q rest ih =>
    cases hq : dictGet q k with
    | none => simp [filterIndexed, hq]
    | some pv =>
      have hr : ∃ p ∈ rest, dictGet p k = none := by
        obtain ⟨p, hp, hpk⟩ := h
        rcases List.mem_cons.mp hp with rfl | hp
        · rw [hq] at hpk; cases hpk
        · exact ⟨p, hp, hpk⟩
      simp [filterIndexed, hq, ih hr]

theorem pySlice_nonneg (l : List α) (a b : Int) (ha : 0 ≤ a) (hab : a ≤ b) :
    pySlice l a b = (l.drop a.toNat).take (b.toNat - a.toNat) := by
  rw [pySlice]
  simp only [if_neg (by omega : ¬ a < 0), if_neg (by omega : ¬ b < 0)]
  rw [List.drop_take]
  have hd : l.drop (min a (l.length : Int)).toNat = l.drop a.toNat := by
    rcases le_total a (l.length : Int) with h | h
    · rw [min_eq_left h]
    · rw [min_eq_right h]
      rw [List.drop_eq_nil_of_le (by simp), List.drop_eq_nil_of_le (by omega)]
  rw [hd, List.take_eq_take]
  rw [List.length_drop]
  omega

theorem allComps_mem (t : List (String × PDict)) :
    ∀ cs, allComps t = some cs → ∀ kv ∈ t, ∃ c ∈ cs, parseCounterKey kv.1 = some c := by
  induction t with
  | nil => intro cs _ kv h; cases h
  | cons a rest ih =>
    intro cs hp kv hkv
    rw [allComps] at hp
    cases hpa : parseCounterKey a.1 with
    | none => rw [hpa] at hp; cases hp
    | some c0 =>
      cases hrest : allComps rest with
      | none => rw [hpa, hrest] at hp; cases hp
      | some cs0 =>
        rw [hpa, hrest] at hp
        injection hp with hp2
        subst hp2
        rcases List.mem_cons.mp hkv with rfl | hkv
        · exact ⟨c0, List.mem_cons_self _ _, hpa⟩
        · obtain ⟨c, hc, hpc⟩ := ih cs0 hrest kv hkv
          exact ⟨c, List.mem_cons_of_mem _ hc, hpc⟩

theorem cleanup_db_eq (db : List (String × PDict)) (hnd : (db.map Prod.fst).Nodup) :
    (cleanup_products db).db = db.filter (fun kv => requiredOk kv.2) := by
  show db.filter _ = _
  refine List.filter_congr ?_
  intro kv hkv
  cases hreq : requiredOk kv.2 with
  | true =>
    have hnm : kv.1 ∉ (db.filter (fun kv => !(requiredOk kv.2))).map Prod.fst := by
      intro hm
      obtain ⟨kv2, hkv2, hfst⟩ := List.mem_map.mp hm
      have h2 := List.mem_filter.mp hkv2
      have heq : kv2 = kv := List.inj_on_of_nodup_map hnd h2.1 hkv hfst
      rw [heq, hreq] at h2
      exact absurd h2.2 (by decide)
    simp [hnm]
  | false =>
    have hmem : kv.1 ∈ (db.filter (fun kv => !(requiredOk kv.2))).map Prod.fst :=
      List.mem_map.mpr ⟨kv, List.mem_filter.mpr ⟨hkv, by rw [hreq]; rfl⟩, rfl⟩
    simp [hmem]

/-! ### Claim C1 -/

/-- C1: in `register_product_blockchain`, if any image upload fails, the
whole operation reports failure (HTTP 500, the handler's blanket
`except Exception` re-wrapping the upload's `HTTPException`), the
product table is unchanged, the counter is not consumed, the file is
not persisted — while every upload before the first failure has already
reached the gateway (`gatewayImages` counts them). -/
theorem register_blockchain_upload_failure_aborts
    (db : List (String × PDict)) (counter : Int)
    (name description category : String) (price_eth : ℚ)
    (seller_address deliverer_address : String) (a : PDict)
    (imgOutcomes : List (Except Nat String)) (metaOutcome : Except Nat String)
    (bps : Int) (now : String) (ts : Nat) (e : Nat)
    (he : Except.error e ∈ imgOutcomes) :
    register_product_blockchain db counter name description category price_eth
        seller_address deliverer_address (.ok a) imgOutcomes metaOutcome bps now ts =
      ⟨db, counter, false, (imgOutcomes.takeWhile exceptIsOk).length, .error 500⟩ := by
  obtain ⟨e2, h⟩ := uploadImages_error imgOutcomes e he
  simp [register_product_blockchain, h]

def dbC1 : List (String × PDict) := [(("prod_1_10"), [(("name"), vStr ("old"))])]

def outcomesC1 : List (Except Nat String) := [.ok ("fidA"), .error 503, .ok ("fidB")]

/-- Witness for C1: three uploads, the second fails; exactly one payload
reached the gateway and nothing was stored. -/
theorem register_blockchain_upload_failure_witness :
    register_product_blockchain dbC1 1 ("n") ("d") ("c") 3 ("s") ("del") (.ok [])
        outcomesC1 (.ok ("mfid")) 0 ("now") 123 =
      ⟨dbC1, 1, false, (outcomesC1.takeWhile exceptIsOk).length, .error 500⟩ :=
  register_blockchain_upload_failure_aborts dbC1 1 ("n") ("d") ("c") 3 ("s") ("del") []
    outcomesC1 (.ok ("mfid")) 0 ("now") 123 503 (by decide)

/-! ### Claim C4 -/

/-- C4: `create_persona` succeeds and stores the record when no persona
with that wallet exists; when one exists it fails with 409 and leaves
the table, including the existing record, unchanged, without saving the
file. -/
theorem persona_create_unique (db : List (String × StoredPersona)) (p : PersonaData)
    (now : String) :
    (tblGet db p.wallet_address = none →
      create_persona db p now =
        ⟨setKey db p.wallet_address
          ⟨p.wallet_address, p.interests, p.browsing_history, p.preferences,
            p.demographics, now, pyOrStr p.updated_at now⟩,
          true, .ok p.wallet_address⟩ ∧
      tblGet (create_persona db p now).db p.wallet_address =
        some ⟨p.wallet_address, p.interests, p.browsing_history, p.preferences,
          p.demographics, now, pyOrStr p.updated_at now⟩) ∧
    (∀ old, tblGet db p.wallet_address = some old →
      (create_persona db p now).response = .error 409 ∧
      (create_persona db p now).db = db ∧
      (create_persona db p now).saved = false ∧
      tblGet (create_persona db p now).db p.wallet_address = some old) := by
  constructor
  · intro h
    refine ⟨?_, ?_⟩
    · simp [create_persona, h]
    · simp [create_persona, h, tblGet_setKey]
  · intro old h
    have hs : (tblGet db p.wallet_address).isSome = true := by rw [h]; rfl
    simp [create_persona, hs, h]

def personaReq : PersonaData := ⟨("0xABC"), [("art")], [], [], none, none⟩

def personaDb1 : List (String × StoredPersona) :=
  (create_persona ([] : List (String × StoredPersona)) personaReq ("t1")).db

/-- Witness for C4: creating into an empty store succeeds; creating the
same wallet again yields 409 and leaves the store unchanged. -/
theorem persona_create_unique_witness :
    create_persona ([] : List (String × StoredPersona)) personaReq ("t1") =
      ⟨setKey [] personaReq.wallet_address
        ⟨personaReq.wallet_address, personaReq.interests, personaReq.browsing_history,
          personaReq.preferences, personaReq.demographics, ("t1"),
          pyOrStr personaReq.updated_at ("t1")⟩,
        true, .ok personaReq.wallet_address⟩ ∧
    (create_persona personaDb1 personaReq ("t2")).response = .error 409 ∧
    (create_persona personaDb1 personaReq ("t2")).db = personaDb1 := by
  have h1 := (persona_create_unique [] personaReq ("t1")).1 (by decide)
  have h2 := (persona_create_unique personaDb1 personaReq ("t2")).2 _ h1.2
  exact ⟨h1.1, h2.1, h2.2.1⟩

/-! ### Claim C5 -/

/-- C5: a successful create stores `created_at = now`, and
`updated_at = created_at` when the caller supplies no `updated_at`;
a successful update keeps `created_at` exactly as it was and sets
`updated_at` to the update time; updating a missing wallet fails with
404 and changes nothing. -/
theorem persona_timestamps (db : List (String × StoredPersona)) (p q : PersonaData)
    (w now now2 : String) :
    (tblGet db p.wallet_address = none →
      ∃ r, tblGet (create_persona db p now).db p.wallet_address = some r ∧
        r.created_at = now ∧ (p.updated_at = none → r.updated_at = r.created_at)) ∧
    (∀ old, tblGet db w = some old →
      ∃ r, tblGet (update_persona db w q now2).db w = some r ∧
        r.created_at = old.created_at ∧ r.updated_at = now2) ∧
    (tblGet db w = none →
      update_persona db w q now2 = ⟨db, false, .error 404⟩) := by
  refine ⟨?_, ?_, ?_⟩
  · intro h
    refine ⟨⟨p.wallet_address, p.interests, p.browsing_history, p.preferences,
      p.demographics, now, pyOrStr p.updated_at now⟩, ?_, rfl, ?_⟩
    · simp [create_persona, h, tblGet_setKey]
    · intro hu
      simp [pyOrStr, hu]
  · intro old h
    refine ⟨⟨q.wallet_address, q.interests, q.browsing_history, q.preferences,
      q.demographics, old.created_at, now2⟩, ?_, rfl, rfl⟩
    simp [update_persona, h, tblGet_setKey]
  · intro h
    simp [update_persona, h]

def personaReq2 : PersonaData := ⟨("0xABC"), [("art"), ("music")], [], [], none, none⟩

/-- Witness for C5: after creating `0xABC` with no `updated_at`, the
stored record has `created_at = updated_at = "t1"`; after an update at
`"t2"`, `created_at` is still `"t1"` and `updated_at` is `"t2"`;
updating an unknown wallet 404s. -/
theorem persona_timestamps_witness :
    (∃ r, tblGet (create_persona ([] : List (String × StoredPersona)) personaReq
        ("t1")).db personaReq.wallet_address = some r ∧
      r.created_at = ("t1") ∧ (personaReq.updated_at = none → r.updated_at = r.created_at)) ∧
    (∃ r, tblGet (update_persona personaDb1 ("0xABC") personaReq2 ("t2")).db
        ("0xABC") = some r ∧
      r.created_at = ("t1") ∧ r.updated_at = ("t2")) ∧
    update_persona ([] : List (String × StoredPersona)) ("0xABC") personaReq2 ("t2") =
      ⟨[], false, .error 404⟩ := by
  refine ⟨?_, ?_, ?_⟩
  · exact (persona_timestamps [] personaReq personaReq2 ("0xABC") ("t1") ("t2")).1 (by decide)
  · have h := (persona_timestamps personaDb1 personaReq personaReq2 ("0xABC") ("t1")
      ("t2")).2.1 ⟨("0xABC"), [("art")], [], [], none, ("t1"), ("t1")⟩ (by decide)
    obtain ⟨r, hr, hc, hu⟩ := h
    exact ⟨r, hr, hc, hu⟩
  · exact (persona_timestamps [] personaReq personaReq2 ("0xABC") ("t1") ("t2")).2.2
      (by decide)

/-! ### Claim C7 -/

/-- C7: `cleanup_products` removes exactly the records missing one of
`name`, `price`, `seller`, retains every record having all three,
reports the number removed, and persists the file only when at least
one record was removed (keys are unique, as in any Python dict). -/
theorem cleanup_products_spec (db : List (String × PDict))
    (hnd : (db.map Prod.fst).Nodup) :
    (cleanup_products db).db = db.filter (fun kv => requiredOk kv.2) ∧
    (∀ kv ∈ db, (kv ∈ (cleanup_products db).db ↔ requiredOk kv.2 = true)) ∧
    (cleanup_products db).cleaned = (db.filter (fun kv => !(requiredOk kv.2))).length ∧
    (cleanup_products db).saved = decide (0 < (cleanup_products db).cleaned) ∧
    (cleanup_products db).remaining = (cleanup_products db).db.length := by
  have hdb := cleanup_db_eq db hnd
  refine ⟨hdb, ?_, ?_, rfl, rfl⟩
  · intro kv hkv
    rw [hdb, List.mem_filter]
    exact ⟨fun h => h.2, fun h => ⟨hkv, h⟩⟩
  · show ((db.filter (fun kv => !(requiredOk kv.2))).map Prod.fst).length = _
    rw [List.length_map]

def dbC7 : List (String × PDict) :=
  [(("a"), [(("name"), vStr ("x")), (("price"), vRat 1), (("seller"), vStr ("s"))]),
   (("b"), [(("name"), vStr ("y"))])]

/-- Witness for C7: a store with one complete and one incomplete record;
cleanup keeps the complete one, removes the other, and saves. -/
theorem cleanup_products_witness :
    ((dbC7.map Prod.fst).Nodup) ∧
    ((cleanup_products dbC7).db = dbC7.filter (fun kv => requiredOk kv.2) ∧
      (∀ kv ∈ dbC7, (kv ∈ (cleanup_products dbC7).db ↔ requiredOk kv.2 = true)) ∧
      (cleanup_products dbC7).cleaned =
        (dbC7.filter (fun kv => !(requiredOk kv.2))).length ∧
      (cleanup_products dbC7).saved = decide (0 < (cleanup_products dbC7).cleaned) ∧
      (cleanup_products dbC7).remaining = (cleanup_products dbC7).db.length) :=
  ⟨by decide, cleanup_products_spec dbC7 (by decide)⟩

/-! ### Claim C9 -/

/-- C9: whenever the gateway's 200 response is not parseable JSON or
lacks the `fid` field, the returned identifier is the SHA-256 hex digest
of the payload bytes; in particular two uploads of identical bytes that
both take the fallback yield the same identifier. -/
theorem upload_fallback_deterministic (cfg cfg2 : CessConfig) (content : List Nat)
    (r1 r2 : CessResp)
    (hc : (pyTruthyOptStr cfg.account && pyTruthyOptStr cfg.message &&
      pyTruthyOptStr cfg.signature) = true)
    (hs : r1.status = 200)
    (hf : r1.parsed = none ∨ ∃ d, r1.parsed = some d ∧ dictGet d ("fid") = none) :
    upload_file_to_cess cfg content r1 = .ok (vStr (sha256hex content)) ∧
    ((pyTruthyOptStr cfg2.account && pyTruthyOptStr cfg2.message &&
        pyTruthyOptStr cfg2.signature) = true →
      r2.status = 200 →
      (r2.parsed = none ∨ ∃ d, r2.parsed = some d ∧ dictGet d ("fid") = none) →
      upload_file_to_cess cfg content r1 = upload_file_to_cess cfg2 content r2) := by
  have key : ∀ (cfg3 : CessConfig) (r3 : CessResp),
      (pyTruthyOptStr cfg3.account && pyTruthyOptStr cfg3.message &&
        pyTruthyOptStr cfg3.signature) = true →
      r3.status = 200 →
      (r3.parsed = none ∨ ∃ d, r3.parsed = some d ∧ dictGet d ("fid") = none) →
      upload_file_to_cess cfg3 content r3 = .ok (vStr (sha256hex content)) := by
    intro cfg3 r3 hc3 hs3 hf3
    rcases hf3 with h | ⟨d, hd, hfid⟩
    · simp [upload_file_to_cess, hc3, hs3, h]
    · simp [upload_file_to_cess, hc3, hs3, hd, hfid]
  exact ⟨key cfg r1 hc hs hf, fun hc2 hs2 hf2 => by
    rw [key cfg r1 hc hs hf, key cfg2 r2 hc2 hs2 hf2]⟩

def cessCfg : CessConfig := ⟨some ("acct"), some ("msg"), some ("sig")⟩

/-- Witness for C9: one response with an unparseable body and one whose
JSON lacks `fid` both yield the SHA-256 digest of the same bytes. -/
theorem upload_fallback_deterministic_witness :
    upload_file_to_cess cessCfg [104, 105] ⟨200, none⟩ =
      .ok (vStr (sha256hex [104, 105])) ∧
    upload_file_to_cess cessCfg [104, 105] ⟨200, none⟩ =
      upload_file_to_cess cessCfg [104, 105] ⟨200, some []⟩ := by
  have h := upload_fallback_deterministic cessCfg cessCfg [104, 105] ⟨200, none⟩
    ⟨200, some []⟩ (by decide) rfl (Or.inl rfl)
  exact ⟨h.1, h.2 (by decide) rfl (Or.inr ⟨[], rfl, rfl⟩)⟩

/-! ### Claim C2 (corrected: negative limit/offset break the formula) -/

/-- C2 counterexample: with one record, `limit = 1`, `offset = -1`, the
endpoint returns 0 records (Python's negative slice index counts from
the end: `[r][-1:0] = []`), while the claimed formula gives
`min(1, max(0, 1 - (-1))) = 1`. -/
theorem get_products_negative_offset_counterexample :
    get_products [(("p1"), [(("name"), vStr ("x"))])] none none none 1 (-1) =
      .ok ⟨[], 1, 1, -1⟩ ∧
    ((0 : Int) ≠ min 1 (max 0 ((1 : Int) - (-1)))) :=
  ⟨by decide, by decide⟩

/-- C2 (amended): for nonnegative `limit` and `offset` the endpoint
returns the contiguous slice `[offset, offset+limit)` of the filtered
result, exactly `min(L, max(0, N-O))` records, and `total = N`; the
original claim's "regardless of the values, including negative" fails
(see the counterexample). -/
theorem get_products_pagination_amended (db : List (String × PDict))
    (category seller status : Option String) (L O : Int) (fl : List PDict)
    (hf : filterPipeline (db.map Prod.snd) category seller status = .ok fl)
    (hL : 0 ≤ L) (hO : 0 ≤ O) :
    get_products db category seller status L O =
      .ok ⟨(fl.drop O.toNat).take L.toNat, fl.length, L, O⟩ ∧
    (((fl.drop O.toNat).take L.toNat).length : Int) =
      min L (max 0 ((fl.length : Int) - O)) := by
  constructor
  · simp only [get_products, hf]
    rw [pySlice_nonneg fl O (O + L) hO (by omega)]
    have harith : (O + L).toNat - O.toNat = L.toNat := by omega
    rw [harith]
  · rw [List.length_take, List.length_drop]
    omega

def dbC2w : List (String × PDict) :=
  [(("p1"), [(("status"), vStr ("active"))]), (("p2"), [(("status"), vStr ("active"))]),
   (("p3"), [(("status"), vStr ("sold"))])]

/-- Witness for the amended C2: three records, two of them `active`;
`limit = 5`, `offset = 1` over the status filter returns 1 record and
`total = 2`. -/
theorem get_products_pagination_amended_witness :
    get_products dbC2w none none (some ("active")) 5 1 =
      .ok ⟨((dbC2w.map Prod.snd).filter (fun p =>
          match dictGet p ("status") with
          | some pv => pyEqStr pv ("active")
          | none => false)).drop 1
        |>.take 5,
        2, 5, 1⟩ ∧
    ((((filterGet ("status") ("active") (dbC2w.map Prod.snd)).drop 1).take 5).length :
      Int) = min 5 (max 0 ((2 : Int) - 1)) := by
  have h := get_products_pagination_amended dbC2w none none (some ("active")) 5 1
    (filterGet ("status") ("active") (dbC2w.map Prod.snd)) (by decide) (by decide)
    (by decide)
  exact ⟨h.1, h.2⟩

/-! ### Claim C10 -/

/-- C10: the listing filters are not uniformly total over records with
missing fields: a record lacking `status` is silently excluded by a
truthy status filter (`.get` lookup), but if any record lacks
`category` (respectively `seller`), a truthy category (seller) filter
raises `KeyError`, surfaced by the handler's blanket `except` as
HTTP 500 instead of a filtered result. -/
theorem get_products_filter_partiality (db : List (String × PDict))
    (c s st : String) (L O : Int) :
    (st ≠ "" →
      get_products db none none (some st) L O =
        .ok ⟨pySlice (filterGet ("status") st (db.map Prod.snd)) O (O + L),
          (filterGet ("status") st (db.map Prod.snd)).length, L, O⟩ ∧
      (∀ p, dictGet p ("status") = none →
        p ∉ filterGet ("status") st (db.map Prod.snd))) ∧
    (c ≠ "" → (∃ p ∈ db.map Prod.snd, dictGet p ("category") = none) →
      get_products db (some c) none none L O = .error 500) ∧
    (s ≠ "" → (∃ p ∈ db.map Prod.snd, dictGet p ("seller") = none) →
      get_products db none (some s) none L O = .error 500) := by
  refine ⟨?_, ?_, ?_⟩
  · intro hst
    constructor
    · simp only [get_products, filterPipeline, if_neg hst]
    · intro p hp hmem
      have h2 := (List.mem_filter.mp hmem).2
      rw [hp] at h2
      simp at h2
  · intro hc hex
    have herr : filterIndexed ("category") c (db.map Prod.snd) = .error () :=
      filterIndexed_error _ _ _ hex
    simp only [get_products, filterPipeline, if_neg hc, herr]
  · intro hs hex
    have herr : filterIndexed ("seller") s (db.map Prod.snd) = .error () :=
      filterIndexed_error _ _ _ hex
    simp only [get_products, filterPipeline, if_neg hs, herr]

def dbC10 : List (String × PDict) := [(("k"), [])]

/-- Witness for C10: a store whose single record has no fields at all:
the status filter quietly returns an empty page, while category and
seller filters produce HTTP 500. -/
theorem get_products_filter_partiality_witness :
    (get_products dbC10 none none (some ("active")) 50 0 =
        .ok ⟨pySlice (filterGet ("status") ("active") (dbC10.map Prod.snd)) 0 (0 + 50),
          (filterGet ("status") ("active") (dbC10.map Prod.snd)).length, 50, 0⟩ ∧
      (∀ p, dictGet p ("status") = none →
        p ∉ filterGet ("status") ("active") (dbC10.map Prod.snd))) ∧
    get_products dbC10 (some ("cat")) none none 50 0 = .error 500 ∧
    get_products dbC10 none (some ("alice")) none 50 0 = .error 500 := by
  have h := get_products_filter_partiality dbC10 ("cat") ("alice") ("active") 50 0
  exact ⟨h.1 (by decide), h.2.1 (by decide) ⟨[], by decide, rfl⟩,
    h.2.2 (by decide) ⟨[], by decide, rfl⟩⟩

/-! ### Claim C6 (corrected: malformed keys discard the whole table) -/

/-- C6 counterexample: the persisted table with keys `prod_5_1` and
`oops` is non-empty and parses as JSON, yet loading it drops every
record and leaves the counter at 0 (the `int(pid.split("_")[1])`
comprehension raises and the `except` clause resets `products_db`), so
the next allocated identifier has numeric component 1, which is *not*
strictly greater than the persisted component 5. -/
theorem load_products_malformed_key_counterexample :
    load_products_from_file (some (some [(("prod_5_1"), []), (("oops"), [])])) =
      ([], 0) ∧
    parseCounterKey ("prod_5_1") = some 5 ∧
    parseCounterKey (mkProductId 1 2) = some 1 ∧
    (1 : Int) < 5 :=
  ⟨by decide, by decide, parseCounterKey_mkProductId 1 2, by decide⟩

/-- C6 (amended): when every persisted key's second underscore-separated
field parses as an integer, the load keeps the table and reconstructs
the counter as the maximum of those fields; the identifier allocated
next (counter+1) carries a numeric component strictly greater than
every persisted one.  A table containing any malformed key is instead
discarded wholesale with the counter left at 0 (see the
counterexample). -/
theorem load_products_counter_amended (t : List (String × PDict)) (cs : List Int)
    (hne : t ≠ []) (hp : allComps t = some cs) (ts : Nat) :
    load_products_from_file (some (some t)) = (t, listMax cs) ∧
    (∀ kv ∈ t, ∃ c, parseCounterKey kv.1 = some c ∧ c ≤ listMax cs) ∧
    parseCounterKey (mkProductId (listMax cs + 1) ts) = some (listMax cs + 1) ∧
    (∀ c ∈ cs, c < listMax cs + 1) := by
  refine ⟨?_, ?_, parseCounterKey_mkProductId _ _, ?_⟩
  · have hie : t.isEmpty = false := by
      cases t with
      | nil => exact absurd rfl hne
      | cons a l => rfl
    simp [load_products_from_file, hie, hp]
  · intro kv hkv
    obtain ⟨c, hc, hpc⟩ := allComps_mem t cs hp kv hkv
    exact ⟨c, hpc, mem_le_listMax cs c hc⟩
  · intro c hc
    have := mem_le_listMax cs c hc
    omega

def tblC6w : List (String × PDict) := [(("prod_2_9"), []), (("prod_7_3"), [])]

/-- Witness for the amended C6: two well-formed keys with components 2
and 7; the counter is reconstructed as 7 and the next id's component 8
dominates both. -/
theorem load_products_counter_amended_witness :
    load_products_from_file (some (some tblC6w)) = (tblC6w, listMax [2, 7]) ∧
    (∀ kv ∈ tblC6w, ∃ c, parseCounterKey kv.1 = some c ∧ c ≤ listMax [2, 7]) ∧
    parseCounterKey (mkProductId (listMax [2, 7] + 1) 5) = some (listMax [2, 7] + 1) ∧
    (∀ c ∈ [(2 : Int), 7], c < listMax [2, 7] + 1) :=
  load_products_counter_amended tblC6w [2, 7] (by decide) (by decide) 5

/-! ### Claim C3 (corrected: float rounding precedes the flooring) -/

/-- The IEEE binary64 value of the Python literal `0.3`
(`5404319552844595 / 2^54`); see the first counterexample conjunct. -/
def d03 : ℚ := Rat.divInt 5404319552844595 18014398509481984

/-- C3 counterexample: for the float `0.3`, `int(0.3 * 10**18)` is
`300000000000000000` (the double product rounds up), while the exact
`⌊0.3·10^18⌋` over that double is `299999999999999988`; and
`wei_to_eth (10^18 + 1)` is exactly `1`, not `(10^18+1)/10^18` — both
conversions are only floor/exact up to double rounding. -/
theorem unit_conversion_float_counterexample :
    roundDouble (Rat.divInt 3 10) = d03 ∧
    eth_to_wei d03 = 300000000000000000 ∧
    ⌊d03 * 1000000000000000000⌋ = 299999999999999988 ∧
    eth_to_wei d03 ≠ ⌊d03 * 1000000000000000000⌋ ∧
    wei_to_eth 1000000000000000001 ≠
      ((1000000000000000001 : Int) : ℚ) / 1000000000000000000 := by
  refine ⟨by decide, ?_, ?_, ?_, ?_⟩
  · show pyIntTrunc (roundDouble (d03 * 1000000000000000000)) = _
    rw [← qmul_eq]
    decide
  · rw [intFloor_eq_ratFloor, ← qmul_eq]
    decide
  · show pyIntTrunc (roundDouble (d03 * 1000000000000000000)) ≠ _
    rw [intFloor_eq_ratFloor, ← qmul_eq]
    decide
  · show roundDouble (((1000000000000000001 : Int) : ℚ) / 1000000000000000000) ≠ _
    rw [← qdiv_eq]
    decide

/-- C3 (amended): `eth_to_wei` truncates the *double-precision* product
`x * 10^18`, so it equals `⌊x·10^18⌋` exactly when that product is
representable (no rounding); `wei_to_eth` returns the double nearest to
`w / 10^18`, exact exactly when that quotient is representable. -/
theorem unit_conversion_amended (x : ℚ) (w : Int) :
    (0 ≤ x → roundDouble (x * 1000000000000000000) = x * 1000000000000000000 →
      eth_to_wei x = ⌊x * 1000000000000000000⌋) ∧
    (roundDouble ((w : ℚ) / 1000000000000000000) = (w : ℚ) / 1000000000000000000 →
      wei_to_eth w = (w : ℚ) / 1000000000000000000) := by
  constructor
  · intro hx h
    show pyIntTrunc (roundDouble (x * 1000000000000000000)) = _
    rw [h]
    exact pyIntTrunc_eq_floor _ (mul_nonneg hx (by norm_num))
  · intro h
    exact h

/-- Witness for the amended C3 at `x = 3.0` and `w = 10^18`, both
exactly representable. -/
theorem unit_conversion_amended_witness :
    eth_to_wei 3 = ⌊(3 : ℚ) * 1000000000000000000⌋ ∧
    wei_to_eth 1000000000000000000 =
      ((1000000000000000000 : Int) : ℚ) / 1000000000000000000 := by
  refine ⟨(unit_conversion_amended 3 1000000000000000000).1 (by norm_num) ?_,
    (unit_conversion_amended 3 1000000000000000000).2 ?_⟩
  · rw [← qmul_eq]
    decide
  · rw [← qdiv_eq]
    decide

/-! ### Claim C8 (corrected: the round trip is subject to double
rounding on both legs) -/

/-- C8 counterexample: for the double `0.3` the round trip
`wei_to_eth (eth_to_wei 0.3)` returns exactly `0.3` again — although
`0.3` is *not* a multiple of `10^-18` — and differs from the claimed
value `⌊0.3·10^18⌋ / 10^18`. -/
theorem roundtrip_float_counterexample :
    wei_to_eth (eth_to_wei d03) = d03 ∧
    (d03 * 1000000000000000000 : ℚ).den ≠ 1 ∧
    wei_to_eth (eth_to_wei d03) ≠
      (⌊d03 * 1000000000000000000⌋ : ℚ) / 1000000000000000000 := by
  refine ⟨?_, ?_, ?_⟩
  · show roundDouble ((↑(pyIntTrunc (roundDouble (d03 * 1000000000000000000))) : ℚ) /
        1000000000000000000) = d03
    rw [← qmul_eq, ← qdiv_eq]
    decide
  · rw [← qmul_eq]
    decide
  · show roundDouble ((↑(pyIntTrunc (roundDouble (d03 * 1000000000000000000))) : ℚ) /
        1000000000000000000) ≠ _
    rw [intFloor_eq_ratFloor, ← qmul_eq, ← qdiv_eq, ← qdiv_eq]
    decide

/-- C8 (amended): when the double product `x·10^18` is exact, the round
trip equals the double nearest to `⌊x·10^18⌋ / 10^18` — the flooring
composed with one more rounding, not the exact quotient and not
necessarily a value below `x`. -/
theorem roundtrip_amended (x : ℚ) (hx : 0 ≤ x)
    (h : roundDouble (x * 1000000000000000000) = x * 1000000000000000000) :
    wei_to_eth (eth_to_wei x) =
      roundDouble ((⌊x * 1000000000000000000⌋ : ℚ) / 1000000000000000000) := by
  have h1 : eth_to_wei x = ⌊x * 1000000000000000000⌋ := by
    show pyIntTrunc (roundDouble (x * 1000000000000000000)) = _
    rw [h]
    exact pyIntTrunc_eq_floor _ (mul_nonneg hx (by norm_num))
  show roundDouble ((↑(eth_to_wei x) : ℚ) / 1000000000000000000) = _
  rw [h1]

/-- Witness for the amended C8 at `x = 3.0`. -/
theorem roundtrip_amended_witness :
    wei_to_eth (eth_to_wei 3) =
      roundDouble ((⌊(3 : ℚ) * 1000000000000000000⌋ : ℚ) / 1000000000000000000) :=
  roundtrip_amended 3 (by norm_num) (by rw [← qmul_eq]; decide)

section SanityChecks

example : pySlice [1, 2, 3] (-1) 49 = [3] := by decide
example : pySlice [1] (-1) 0 = ([] : List Nat) := by decide
example : Rat.floor (Rat.divInt 7 2) = 3 := by decide
example : roundDouble (Rat.divInt 3 10) = Rat.divInt 5404319552844595 18014398509481984 := by
  decide
example : roundDouble (Rat.divInt 1 2) = Rat.divInt 1 2 := by decide
example : roundDouble 3 = 3 := by decide
example : roundDouble (Rat.divInt (-3) 10) =
    Rat.divInt (-5404319552844595) 18014398509481984 := by decide
example : Rat.floor (qmul (Rat.divInt 5404319552844595 18014398509481984)
    1000000000000000000) = 299999999999999988 := by decide
example : pyIntTrunc (roundDouble (qmul (Rat.divInt 5404319552844595 18014398509481984)
    1000000000000000000)) = 300000000000000000 := by decide
example : roundDouble (qdiv ((1000000000000000001 : Int) : ℚ) 1000000000000000000) = 1 := by
  decide
example : roundDouble (qdiv ((300000000000000000 : Int) : ℚ) 1000000000000000000) =
    Rat.divInt 5404319552844595 18014398509481984 := by decide

example : sha256hex [] =
    "e3b0c44298fc1c149afbf4c8996fb92427ae41e4649b934ca495991b7852b855" := by decide

example : sha256hex [104, 105] =
    "8f434346648f6b96df89dda901c5176b10a6d83961dd3c1ac88b59b2dc327aa4" := by decide

end SanityChecks
